import Mathlib

/-!
Verification development for the wavesurf symbolic-mathematics core.

Embedding conventions:
- The Rust enum Expression is embedded as an inductive type. Rust f64
  constants are embedded as exact rationals: every finite f64 value is a
  rational, and all constant values appearing in the source (0, 1, -1, 2,
  0.5, pi, e, 1e-10) are used here as their exact rational readings.
- Fallible code (integrate, returning Result<Expression, IntegrationError>
  where IntegrationError wraps a String) is embedded as Except String.
- The recursive simplify and differentiate of the source can re-invoke
  themselves on freshly built terms (the Root arms), so they are embedded
  with an explicit fuel parameter returning Option; sufficiency of an
  explicit fuel bound is then a theorem. integrate only re-invokes itself
  on terms that strictly decrease a weighted measure, so it is embedded as
  a total function by well-founded recursion on that measure.
-/

namespace Wavesurf

/-- Embedding of the Rust enum Expression from src/expression.rs.
Constant carries a rational standing for the f64 value. -/
inductive Expression where
  | Constant (value : ℚ)
  | Variable (name : String)
  | Add (left right : Expression)
  | Subtract (left right : Expression)
  | Multiply (left right : Expression)
  | Divide (left right : Expression)
  | Power (base exponent : Expression)
  | Root (base degree : Expression)
  | Sin (arg : Expression)
  | Cos (arg : Expression)
  | Tan (arg : Expression)
  | Arcsin (arg : Expression)
  | Arccos (arg : Expression)
  | Arctan (arg : Expression)
  | Exp (arg : Expression)
  | Ln (arg : Expression)
  | Log (base arg : Expression)
  | Sinh (arg : Expression)
  | Cosh (arg : Expression)
  | Tanh (arg : Expression)
deriving DecidableEq, Repr

namespace Expression

/-- Number of nodes of an expression tree. -/
def esize : Expression → Nat
  | Constant _ => 1
  | Variable _ => 1
  | Add l r => 1 + esize l + esize r
  | Subtract l r => 1 + esize l + esize r
  | Multiply l r => 1 + esize l + esize r
  | Divide l r => 1 + esize l + esize r
  | Power l r => 1 + esize l + esize r
  | Root l r => 1 + esize l + esize r
  | Sin u => 1 + esize u
  | Cos u => 1 + esize u
  | Tan u => 1 + esize u
  | Arcsin u => 1 + esize u
  | Arccos u => 1 + esize u
  | Arctan u => 1 + esize u
  | Exp u => 1 + esize u
  | Ln u => 1 + esize u
  | Log b u => 1 + esize b + esize u
  | Sinh u => 1 + esize u
  | Cosh u => 1 + esize u
  | Tanh u => 1 + esize u

/-- Number of Root nodes of an expression tree. -/
def rootCount : Expression → Nat
  | Constant _ => 0
  | Variable _ => 0
  | Add l r => rootCount l + rootCount r
  | Subtract l r => rootCount l + rootCount r
  | Multiply l r => rootCount l + rootCount r
  | Divide l r => rootCount l + rootCount r
  | Power l r => rootCount l + rootCount r
  | Root l r => 1 + rootCount l + rootCount r
  | Sin u => rootCount u
  | Cos u => rootCount u
  | Tan u => rootCount u
  | Arcsin u => rootCount u
  | Arccos u => rootCount u
  | Arctan u => rootCount u
  | Exp u => rootCount u
  | Ln u => rootCount u
  | Log b u => rootCount b + rootCount u
  | Sinh u => rootCount u
  | Cosh u => rootCount u
  | Tanh u => rootCount u

/-- Weighted measure: rewriting Root(b, n) to Power(b, 1/n) removes one Root
node (weight 3) while adding two nodes, so the measure strictly decreases on
that rewrite as well as on every step into a subterm. -/
def measureE (e : Expression) : Nat := 3 * rootCount e + esize e

/-- Predicate: the tree contains no Root node. -/
def rootFree : Expression → Bool
  | Constant _ => true
  | Variable _ => true
  | Add l r => rootFree l && rootFree r
  | Subtract l r => rootFree l && rootFree r
  | Multiply l r => rootFree l && rootFree r
  | Divide l r => rootFree l && rootFree r
  | Power l r => rootFree l && rootFree r
  | Root _ _ => false
  | Sin u => rootFree u
  | Cos u => rootFree u
  | Tan u => rootFree u
  | Arcsin u => rootFree u
  | Arccos u => rootFree u
  | Arctan u => rootFree u
  | Exp u => rootFree u
  | Ln u => rootFree u
  | Log b u => rootFree b && rootFree u
  | Sinh u => rootFree u
  | Cosh u => rootFree u
  | Tanh u => rootFree u

/-- Embedding of Expression::integrate from src/calculus.rs (the version
compiled into the crate: lib.rs declares pub mod calculus resolving to
calculus.rs, which declares no submodules, so the files under calculus/
are not part of the build). The error strings are the IntegrationError
payloads of the source. The Root arm recurses on a rewritten Power term;
termination is by the weighted measure measureE. -/
def integrate (e : Expression) (var : String) : Except String Expression :=
  match e with
  | Constant c =>
      .ok (Multiply (Constant c) (Variable var))
  | Variable name =>
      if name = var then
        .ok (Divide (Power (Variable var) (Constant 2)) (Constant 2))
      else
        .ok (Multiply (Variable name) (Variable var))
  | Add l r => do
      let li ← integrate l var
      let ri ← integrate r var
      .ok (Add li ri)
  | Subtract l r => do
      let li ← integrate l var
      let ri ← integrate r var
      .ok (Subtract li ri)
  | Multiply l r =>
      match l, r with
      | Constant c, e2 => do
          let i ← integrate e2 var
          .ok (Multiply (Constant c) i)
      | e2, Constant c => do
          let i ← integrate e2 var
          .ok (Multiply (Constant c) i)
      | Variable n1, Variable n2 =>
          if n1 = n2 then
            if n1 = var then
              .ok (Divide (Power (Variable n1) (Constant 3)) (Constant 3))
            else
              .error "Cannot integrate this product"
          else
            .error "Integration of general products not implemented"
      | _, _ => .error "Integration of general products not implemented"
  | Power b ex =>
      match b, ex with
      | Variable name, Constant n =>
          if name = var then
            if |n - (-1)| > 1 / 10000000000 then
              .ok (Divide (Power (Variable var) (Constant (n + 1))) (Constant (n + 1)))
            else
              .ok (Ln (Variable var))
          else
            .error "Integration of general powers not implemented"
      | _, _ => .error "Integration of general powers not implemented"
  | Root b n =>
      integrate (Power b (Divide (Constant 1) n)) var
  | Divide num den =>
      match den, num with
      | Variable v, Constant c =>
          if c = 1 ∧ v = var then
            .ok (Multiply (Constant 1) (Ln (Variable var)))
          else
            .error "Cannot integrate this division"
      | _, _ => .error "Cannot integrate this division"
  | Sin u =>
      match u with
      | Variable v =>
          if v = var then
            .ok (Multiply (Constant (-1)) (Cos (Variable var)))
          else
            .error "Cannot integrate sin of complex expression"
      | _ => .error "Cannot integrate sin of complex expression"
  | Cos u =>
      match u with
      | Variable v =>
          if v = var then
            .ok (Sin (Variable var))
          else
            .error "Cannot integrate cos of complex expression"
      | _ => .error "Cannot integrate cos of complex expression"
  | Tan u =>
      match u with
      | Variable v =>
          if v = var then
            .ok (Multiply (Constant (-1)) (Ln (Cos (Variable var))))
          else
            .error "Cannot integrate tan of complex expression"
      | _ => .error "Cannot integrate tan of complex expression"
  | Exp u =>
      match u with
      | Variable v =>
          if v = var then
            .ok (Exp (Variable var))
          else
            .error "Cannot integrate exp of complex expression"
      | _ => .error "Cannot integrate exp of complex expression"
  | Ln u =>
      match u with
      | Variable v =>
          if v = var then
            .ok (Subtract (Multiply (Variable var) (Ln (Variable var))) (Variable var))
          else
            .error "Cannot integrate ln of complex expression"
      | _ => .error "Cannot integrate ln of complex expression"
  | Arcsin _ => .error "Integration of arcsin not implemented"
  | Arccos _ => .error "Integration of arccos not implemented"
  | Arctan _ => .error "Integration of arctan not implemented"
  | Log _ _ => .error "Integration of logarithm with arbitrary base not implemented"
  | Sinh u =>
      match u with
      | Variable v =>
          if v = var then
            .ok (Cosh (Variable var))
          else
            .error "Cannot integrate sinh of complex expression"
      | _ => .error "Cannot integrate sinh of complex expression"
  | Cosh u =>
      match u with
      | Variable v =>
          if v = var then
            .ok (Sinh (Variable var))
          else
            .error "Cannot integrate cosh of complex expression"
      | _ => .error "Cannot integrate cosh of complex expression"
  | Tanh u =>
      match u with
      | Variable v =>
          if v = var then
            .ok (Ln (Cosh (Variable var)))
          else
            .error "Cannot integrate tanh of complex expression"
      | _ => .error "Cannot integrate tanh of complex expression"
termination_by measureE e
decreasing_by
  all_goals simp [measureE, rootCount, esize]
  all_goals omega

/-- Structural recursion-depth bound for differentiate: each case of the
source recurses only on the subterms listed here, except the Root arm which
first rewrites to a Power (one extra call) and then recurses on the base. -/
def dm : Expression → Nat
  | Constant _ => 1
  | Variable _ => 1
  | Add l r => 1 + max (dm l) (dm r)
  | Subtract l r => 1 + max (dm l) (dm r)
  | Multiply l r => 1 + max (dm l) (dm r)
  | Divide l r => 1 + max (dm l) (dm r)
  | Power b _ => 1 + dm b
  | Root b _ => 2 + dm b
  | Sin u => 1 + dm u
  | Cos u => 1 + dm u
  | Tan u => 1 + dm u
  | Arcsin u => 1 + dm u
  | Arccos u => 1 + dm u
  | Arctan u => 1 + dm u
  | Exp u => 1 + dm u
  | Ln u => 1 + dm u
  | Log _ u => 1 + dm u
  | Sinh u => 1 + dm u
  | Cosh u => 1 + dm u
  | Tanh u => 1 + dm u

/-- Fueled embedding of Expression::differentiate from src/calculus.rs.
The source is a recursive function whose Root arm re-invokes differentiate
on a rewritten Power term that is not a structural subterm, so termination
is exactly what claim C7 asserts; the embedding makes the recursion explicit
through a fuel parameter, returning none when fuel runs out. Every arm
builds the same expression tree as the source. -/
def differentiateF : Nat → Expression → String → Option Expression
  | 0, _, _ => none
  | f + 1, e, var =>
    match e with
    | Constant _ => some (Constant 0)
    | Variable name =>
        if name = var then some (Constant 1) else some (Constant 0)
    | Add l r => do
        let dl ← differentiateF f l var
        let dr ← differentiateF f r var
        some (Add dl dr)
    | Subtract l r => do
        let dl ← differentiateF f l var
        let dr ← differentiateF f r var
        some (Subtract dl dr)
    | Multiply l r => do
        let dl ← differentiateF f l var
        let dr ← differentiateF f r var
        some (Add (Multiply dl r) (Multiply l dr))
    | Divide l r => do
        let dl ← differentiateF f l var
        let dr ← differentiateF f r var
        some (Divide (Subtract (Multiply r dl) (Multiply l dr))
                     (Power r (Constant 2)))
    | Power b ex =>
        match ex with
        | Constant n => do
            let db ← differentiateF f b var
            some (Multiply (Constant n) (Multiply (Power b (Constant (n - 1))) db))
        | _ => do
            let db ← differentiateF f b var
            some (Multiply ex (Multiply (Ln b) db))
    | Root b n =>
        differentiateF f (Power b (Divide (Constant 1) n)) var
    | Sin u => do
        let du ← differentiateF f u var
        some (Multiply (Cos u) du)
    | Cos u => do
        let du ← differentiateF f u var
        some (Multiply (Multiply (Constant (-1)) (Sin u)) du)
    | Tan u => do
        let du ← differentiateF f u var
        some (Multiply (Divide (Constant 1) (Power (Cos u) (Constant 2))) du)
    | Arcsin u => do
        let du ← differentiateF f u var
        some (Multiply du (Divide (Constant 1)
          (Power (Subtract (Constant 1) (Power u (Constant 2))) (Constant (1/2)))))
    | Arccos u => do
        let du ← differentiateF f u var
        some (Multiply du (Multiply (Constant (-1)) (Divide (Constant 1)
          (Power (Subtract (Constant 1) (Power u (Constant 2))) (Constant (1/2))))))
    | Arctan u => do
        let du ← differentiateF f u var
        some (Multiply du (Divide (Constant 1)
          (Add (Constant 1) (Power u (Constant 2)))))
    | Exp u => do
        let du ← differentiateF f u var
        some (Multiply (Exp u) du)
    | Ln u => do
        let du ← differentiateF f u var
        some (Multiply (Divide (Constant 1) u) du)
    | Log b u => do
        let du ← differentiateF f u var
        some (Multiply du (Divide (Constant 1) (Multiply u (Ln b))))
    | Sinh u => do
        let du ← differentiateF f u var
        some (Multiply (Cosh u) du)
    | Cosh u => do
        let du ← differentiateF f u var
        some (Multiply (Sinh u) du)
    | Tanh u => do
        let du ← differentiateF f u var
        some (Multiply (Subtract (Constant 1) (Power (Tanh u) (Constant 2))) du)

end Expression

/-- Embedding of the enum IntegrationMethod from
src/calculus/integration_state.rs. -/
inductive IntegrationMethod where
  | Direct
  | ByParts
  | Substitution
  | TrigonometricSubstitution
  | RationalFunction
deriving DecidableEq, Repr

/-- Embedding of is_similar from src/calculus/integration_state.rs (the
method ignores the state, so it is embedded as a plain function): structural
equality, commutativity-aware comparison for Multiply and Add, fixed-order
comparison for Subtract and the unary functions Sin, Cos, Tan, Exp, Ln;
every other shape pair is dissimilar. -/
def isSimilar (e1 e2 : Expression) : Bool :=
  if e1 = e2 then true
  else
    match e1, e2 with
    | .Multiply a1 b1, .Multiply a2 b2 =>
        (isSimilar a1 a2 && isSimilar b1 b2) || (isSimilar a1 b2 && isSimilar b1 a2)
    | .Add a1 b1, .Add a2 b2 =>
        (isSimilar a1 a2 && isSimilar b1 b2) || (isSimilar a1 b2 && isSimilar b1 a2)
    | .Subtract a1 b1, .Subtract a2 b2 => isSimilar a1 a2 && isSimilar b1 b2
    | .Sin a1, .Sin a2 => isSimilar a1 a2
    | .Cos a1, .Cos a2 => isSimilar a1 a2
    | .Tan a1, .Tan a2 => isSimilar a1 a2
    | .Exp a1, .Exp a2 => isSimilar a1 a2
    | .Ln a1, .Ln a2 => isSimilar a1 a2
    | _, _ => false

/-- Embedding of the struct IntegrationState from
src/calculus/integration_state.rs. The Vec visited_expressions is used by
the source only as a stack (push and pop at the same end) and for an
order-independent membership scan, so it is embedded as a list with the
stack top at the head. -/
structure IntegrationState where
  depth : Nat
  max_depth : Nat
  visited_expressions : List Expression
  current_method : IntegrationMethod
deriving DecidableEq, Repr

namespace IntegrationState

/-- Embedding of IntegrationState::new. -/
def new (max_depth : Nat) : IntegrationState :=
  { depth := 0
    max_depth := max_depth
    visited_expressions := []
    current_method := .Direct }

/-- Embedding of IntegrationState::should_prune: depth bound reached, or
some visited expression is similar to the argument. -/
def should_prune (s : IntegrationState) (e : Expression) : Bool :=
  if s.depth ≥ s.max_depth then true
  else s.visited_expressions.any fun visited => isSimilar visited e

/-- Embedding of IntegrationState::push_expression. -/
def push_expression (s : IntegrationState) (e : Expression) : IntegrationState :=
  { s with visited_expressions := e :: s.visited_expressions
           depth := s.depth + 1 }

/-- Embedding of IntegrationState::pop_expression: the vector pop is a
no-op on an empty vector, and depth is decremented only when positive. -/
def pop_expression (s : IntegrationState) : IntegrationState :=
  { s with visited_expressions := s.visited_expressions.tail
           depth := if s.depth > 0 then s.depth - 1 else s.depth }

/-- Embedding of IntegrationState::set_method. -/
def set_method (s : IntegrationState) (m : IntegrationMethod) : IntegrationState :=
  { s with current_method := m }

end IntegrationState

/-- A single push_expression or pop_expression call, for stating the
reachable-state invariant of claim C10. -/
inductive StackOp where
  | push (e : Expression)
  | pop
deriving Repr

/-- Run a sequence of push_expression and pop_expression calls on a state. -/
def runOps (s : IntegrationState) : List StackOp → IntegrationState
  | [] => s
  | .push e :: rest => runOps (s.push_expression e) rest
  | .pop :: rest => runOps s.pop_expression rest

/-- Embedding of the struct IntegrationRule from
src/calculus/integration_rules.rs. -/
structure IntegrationRule where
  pattern : Expression
  result : Expression
deriving DecidableEq, Repr

/-- Embedding of the struct IntegrationTable from
src/calculus/integration_rules.rs. -/
structure IntegrationTable where
  rules : List IntegrationRule
deriving DecidableEq, Repr

namespace IntegrationTable

open Expression

/-- Embedding of IntegrationTable::new followed by initialize_rules: the
nine rules pushed, in source order. -/
def new : IntegrationTable :=
  { rules :=
      [ { pattern := Power (Variable "x") (Variable "n")
          result := Divide (Power (Variable "x") (Add (Variable "n") (Constant 1)))
                           (Add (Variable "n") (Constant 1)) }
      , { pattern := Sin (Variable "x")
          result := Multiply (Constant (-1)) (Cos (Variable "x")) }
      , { pattern := Cos (Variable "x")
          result := Sin (Variable "x") }
      , { pattern := Tan (Variable "x")
          result := Multiply (Constant (-1)) (Ln (Cos (Variable "x"))) }
      , { pattern := Exp (Variable "x")
          result := Exp (Variable "x") }
      , { pattern := Ln (Variable "x")
          result := Subtract (Multiply (Variable "x") (Ln (Variable "x")))
                             (Variable "x") }
      , { pattern := Sinh (Variable "x")
          result := Cosh (Variable "x") }
      , { pattern := Cosh (Variable "x")
          result := Sinh (Variable "x") }
      , { pattern := Tanh (Variable "x")
          result := Ln (Cosh (Variable "x")) } ] }

/-- Embedding of IntegrationTable::matches (renamed: matches is reserved): the source body is a stub that
ignores its arguments and reports false. -/
def matchesPattern (_t : IntegrationTable) (_pattern _expr : Expression)
    (_var : String) : Bool :=
  false

/-- Embedding of IntegrationTable::apply_rule: the source stub returns the
result template unchanged. -/
def apply_rule (_t : IntegrationTable) (result _expr : Expression)
    (_var : String) : Expression :=
  result

/-- Embedding of IntegrationTable::lookup: first rule whose pattern matches
wins; the loop returning at the first hit is the first matching element of
the rule list. -/
def lookup (t : IntegrationTable) (expr : Expression) (var : String) :
    Option (Except String Expression) :=
  match t.rules.find? (fun rule => t.matchesPattern rule.pattern expr var) with
  | some rule => some (.ok (t.apply_rule rule.result expr var))
  | none => none

end IntegrationTable

namespace Expression

/-- Exact rational value of the f64 constant std::f64::consts::PI. -/
def qpi : ℚ := 884279719003555 / 281474976710656

/-- Exact rational value of the f64 constant std::f64::consts::E. -/
def qe : ℚ := 6121026514868073 / 2251799813685248

/-- Rational model of f64::powf as used by the constant fold of the Power
arm of simplify. For an integer exponent (and for base 1) powf is exact
real exponentiation of the operands, modelled here exactly; a non-integer
exponent generally has an irrational value with no rational counterpart and
is modelled as 0 (no claim depends on those values: the fold stores whatever
powf returns, and a Constant is inert under further simplification). -/
def qpow (c n : ℚ) : ℚ :=
  if n.den = 1 then c ^ n.num else if c = 1 then 1 else 0

/-- The Add arm of Expression::simplify from src/simplify.rs, applied to the
two already simplified children; branch order follows the source: zero on
the left, zero on the right, constant fold, identical variable leaves,
otherwise rebuild. -/
def simpAdd : Expression → Expression → Expression
  | Constant c1, Constant c2 =>
      if c1 = 0 then Constant c2
      else if c2 = 0 then Constant c1
      else Constant (c1 + c2)
  | Constant c1, r => if c1 = 0 then r else Add (Constant c1) r
  | l, Constant c2 => if c2 = 0 then l else Add l (Constant c2)
  | Variable v1, Variable v2 =>
      if v1 = v2 then Multiply (Constant 2) (Variable v1)
      else Add (Variable v1) (Variable v2)
  | l, r => Add l r

/-- The Subtract arm of simplify on simplified children: zero on the right,
constant fold, x - x = 0, otherwise rebuild. -/
def simpSub : Expression → Expression → Expression
  | Constant c1, Constant c2 =>
      if c2 = 0 then Constant c1 else Constant (c1 - c2)
  | l, Constant c2 => if c2 = 0 then l else Subtract l (Constant c2)
  | Variable v1, Variable v2 =>
      if v1 = v2 then Constant 0
      else Subtract (Variable v1) (Variable v2)
  | l, r => Subtract l r

/-- The Multiply arm of simplify on simplified children: zero annihilator on
either side, unit on either side, constant fold, x * x = x^2, otherwise
rebuild. -/
def simpMul : Expression → Expression → Expression
  | Constant c1, Constant c2 =>
      if c1 = 0 then Constant 0
      else if c2 = 0 then Constant 0
      else if c1 = 1 then Constant c2
      else if c2 = 1 then Constant c1
      else Constant (c1 * c2)
  | Constant c1, r =>
      if c1 = 0 then Constant 0
      else if c1 = 1 then r
      else Multiply (Constant c1) r
  | l, Constant c2 =>
      if c2 = 0 then Constant 0
      else if c2 = 1 then l
      else Multiply l (Constant c2)
  | Variable v1, Variable v2 =>
      if v1 = v2 then Power (Variable v1) (Constant 2)
      else Multiply (Variable v1) (Variable v2)
  | l, r => Multiply l r

/-- The Divide arm of simplify on simplified children: zero numerator, unit
denominator, constant fold guarded by a nonzero denominator, x / x = 1,
otherwise rebuild. -/
def simpDiv : Expression → Expression → Expression
  | Constant c1, Constant c2 =>
      if c1 = 0 then Constant 0
      else if c2 = 1 then Constant c1
      else if c2 = 0 then Divide (Constant c1) (Constant c2)
      else Constant (c1 / c2)
  | Constant c1, r => if c1 = 0 then Constant 0 else Divide (Constant c1) r
  | l, Constant c2 => if c2 = 1 then l else Divide l (Constant c2)
  | Variable v1, Variable v2 =>
      if v1 = v2 then Constant 1
      else Divide (Variable v1) (Variable v2)
  | l, r => Divide l r

/-- The Power arm of simplify on simplified children: exponent 0, exponent
1, zero base with positive constant exponent, unit base, constant fold via
powf, otherwise rebuild. -/
def simpPow : Expression → Expression → Expression
  | Constant c, Constant n =>
      if n = 0 then Constant 1
      else if n = 1 then Constant c
      else if c = 0 ∧ n > 0 then Constant 0
      else if c = 1 then Constant 1
      else Constant (qpow c n)
  | Constant c, ex => if c = 1 then Constant 1 else Power (Constant c) ex
  | b, Constant n =>
      if n = 0 then Constant 1
      else if n = 1 then b
      else Power b (Constant n)
  | b, ex => Power b ex

/-- The Sin arm of simplify on the simplified child. -/
def simpSin : Expression → Expression
  | Constant x => if x = 0 then Constant 0 else Sin (Constant x)
  | s => Sin s

/-- The Cos arm of simplify on the simplified child. -/
def simpCos : Expression → Expression
  | Constant x => if x = 0 then Constant 1 else Cos (Constant x)
  | s => Cos s

/-- The Tan arm of simplify on the simplified child. -/
def simpTan : Expression → Expression
  | Constant x => if x = 0 then Constant 0 else Tan (Constant x)
  | s => Tan s

/-- The Arcsin arm of simplify on the simplified child. -/
def simpArcsin : Expression → Expression
  | Constant x =>
      if x = 0 then Constant 0
      else if x = 1 then Constant (qpi / 2)
      else if x = -1 then Constant (-(qpi / 2))
      else Arcsin (Constant x)
  | s => Arcsin s

/-- The Arccos arm of simplify on the simplified child. -/
def simpArccos : Expression → Expression
  | Constant x =>
      if x = 1 then Constant 0
      else if x = -1 then Constant qpi
      else if x = 0 then Constant (qpi / 2)
      else Arccos (Constant x)
  | s => Arccos s

/-- The Arctan arm of simplify on the simplified child. -/
def simpArctan : Expression → Expression
  | Constant x =>
      if x = 0 then Constant 0
      else if x = 1 then Constant (qpi / 4)
      else if x = -1 then Constant (-(qpi / 4))
      else Arctan (Constant x)
  | s => Arctan s

/-- The constant-folding part of the Exp arm of simplify on the simplified
child (the ln-cancellation case is handled by simplifyF itself, because it
recurses). -/
def simpExp : Expression → Expression
  | Constant x =>
      if x = 0 then Constant 1
      else if x = 1 then Constant qe
      else Exp (Constant x)
  | s => Exp s

/-- The constant-folding part of the Ln arm of simplify on the simplified
child (the exp-cancellation case is handled by simplifyF itself). -/
def simpLn : Expression → Expression
  | Constant x =>
      if x = 1 then Constant 0
      else if x = qe then Constant 1
      else Ln (Constant x)
  | s => Ln s

/-- The Log arm of simplify on the simplified base and argument. -/
def simpLog : Expression → Expression → Expression
  | Constant b, Constant x =>
      if x = 1 then Constant 0
      else if x = b then Constant 1
      else Log (Constant b) (Constant x)
  | a, b => Log a b

/-- The Sinh arm of simplify on the simplified child. -/
def simpSinh : Expression → Expression
  | Constant x => if x = 0 then Constant 0 else Sinh (Constant x)
  | s => Sinh s

/-- The Cosh arm of simplify on the simplified child. -/
def simpCosh : Expression → Expression
  | Constant x => if x = 0 then Constant 1 else Cosh (Constant x)
  | s => Cosh s

/-- The Tanh arm of simplify on the simplified child. -/
def simpTanh : Expression → Expression
  | Constant x => if x = 0 then Constant 0 else Tanh (Constant x)
  | s => Tanh s

/-- Argument of a Ln node, if any (used to express the source match of the
Exp arm on the shape of the simplified child; the Constant and Ln patterns
of that match are disjoint, so testing Ln separately is order-faithful). -/
def lnArg : Expression → Option Expression
  | Ln t => some t
  | _ => none

/-- Argument of an Exp node, if any (for the Ln arm of simplify). -/
def expArg : Expression → Option Expression
  | Exp t => some t
  | _ => none

/-- Fueled embedding of Expression::simplify from src/simplify.rs: children
are simplified first, then the parent rule fires (the per-arm helper
functions above). The Root arm rewrites to a Power and re-simplifies; the
Exp and Ln arms re-simplify the argument of a cancelled inverse pair. Those
re-invocations are not structural recursion, hence the fuel parameter;
sufficiency of the bound measureE is proved below. -/
def simplifyF : Nat → Expression → Option Expression
  | 0, _ => none
  | _ + 1, Constant c => some (Constant c)
  | _ + 1, Variable v => some (Variable v)
  | f + 1, Add l r => do
      let L ← simplifyF f l
      let R ← simplifyF f r
      some (simpAdd L R)
  | f + 1, Subtract l r => do
      let L ← simplifyF f l
      let R ← simplifyF f r
      some (simpSub L R)
  | f + 1, Multiply l r => do
      let L ← simplifyF f l
      let R ← simplifyF f r
      some (simpMul L R)
  | f + 1, Divide l r => do
      let L ← simplifyF f l
      let R ← simplifyF f r
      some (simpDiv L R)
  | f + 1, Power b ex => do
      let B ← simplifyF f b
      let E ← simplifyF f ex
      some (simpPow B E)
  | f + 1, Root b n => do
      let B ← simplifyF f b
      let N ← simplifyF f n
      simplifyF f (Power B (Divide (Constant 1) N))
  | f + 1, Sin u => do
      let S ← simplifyF f u
      some (simpSin S)
  | f + 1, Cos u => do
      let S ← simplifyF f u
      some (simpCos S)
  | f + 1, Tan u => do
      let S ← simplifyF f u
      some (simpTan S)
  | f + 1, Arcsin u => do
      let S ← simplifyF f u
      some (simpArcsin S)
  | f + 1, Arccos u => do
      let S ← simplifyF f u
      some (simpArccos S)
  | f + 1, Arctan u => do
      let S ← simplifyF f u
      some (simpArctan S)
  | f + 1, Exp u => do
      let S ← simplifyF f u
      match lnArg S with
      | some inner => simplifyF f inner
      | none => some (simpExp S)
  | f + 1, Ln u => do
      let S ← simplifyF f u
      match expArg S with
      | some inner => simplifyF f inner
      | none => some (simpLn S)
  | f + 1, Log b u => do
      let B ← simplifyF f b
      let U ← simplifyF f u
      some (simpLog B U)
  | f + 1, Sinh u => do
      let S ← simplifyF f u
      some (simpSinh S)
  | f + 1, Cosh u => do
      let S ← simplifyF f u
      some (simpCosh S)
  | f + 1, Tanh u => do
      let S ← simplifyF f u
      some (simpTanh S)

/-- Total form of simplify: run simplifyF with the sufficient fuel bound
measureE e + 1 (sufficiency is the theorem simplifyF_total below; getD is
never the fallback on that fuel). -/
def simplify (e : Expression) : Expression :=
  (simplifyF (measureE e + 1) e).getD e

/-- An expression is a simplification fixed point: simplifyF returns it
unchanged under any sufficient fuel. -/
def FixPt (s : Expression) : Prop :=
  ∀ n, measureE s < n → simplifyF n s = some s

end Expression

end Wavesurf

namespace Wavesurf

namespace Expression

theorem esize_pos (e : Expression) : 0 < esize e := by
  cases e <;> simp [esize]

theorem measureE_pos (e : Expression) : 0 < measureE e := by
  have := esize_pos e
  simp only [measureE]
  omega

@[simp] theorem measureE_Constant (c : ℚ) : measureE (Constant c) = 1 := by
  simp [measureE, rootCount, esize]

@[simp] theorem measureE_Variable (v : String) : measureE (Variable v) = 1 := by
  simp [measureE, rootCount, esize]

@[simp] theorem measureE_Add (l r : Expression) :
    measureE (Add l r) = measureE l + measureE r + 1 := by
  simp [measureE, rootCount, esize]; ring

@[simp] theorem measureE_Subtract (l r : Expression) :
    measureE (Subtract l r) = measureE l + measureE r + 1 := by
  simp [measureE, rootCount, esize]; ring

@[simp] theorem measureE_Multiply (l r : Expression) :
    measureE (Multiply l r) = measureE l + measureE r + 1 := by
  simp [measureE, rootCount, esize]; ring

@[simp] theorem measureE_Divide (l r : Expression) :
    measureE (Divide l r) = measureE l + measureE r + 1 := by
  simp [measureE, rootCount, esize]; ring

@[simp] theorem measureE_Power (l r : Expression) :
    measureE (Power l r) = measureE l + measureE r + 1 := by
  simp [measureE, rootCount, esize]; ring

@[simp] theorem measureE_Root (l r : Expression) :
    measureE (Root l r) = measureE l + measureE r + 4 := by
  simp [measureE, rootCount, esize]; ring

@[simp] theorem measureE_Log (l r : Expression) :
    measureE (Log l r) = measureE l + measureE r + 1 := by
  simp [measureE, rootCount, esize]; ring

@[simp] theorem measureE_Sin (u : Expression) : measureE (Sin u) = measureE u + 1 := by
  simp [measureE, rootCount, esize]; ring

@[simp] theorem measureE_Cos (u : Expression) : measureE (Cos u) = measureE u + 1 := by
  simp [measureE, rootCount, esize]; ring

@[simp] theorem measureE_Tan (u : Expression) : measureE (Tan u) = measureE u + 1 := by
  simp [measureE, rootCount, esize]; ring

@[simp] theorem measureE_Arcsin (u : Expression) : measureE (Arcsin u) = measureE u + 1 := by
  simp [measureE, rootCount, esize]; ring

@[simp] theorem measureE_Arccos (u : Expression) : measureE (Arccos u) = measureE u + 1 := by
  simp [measureE, rootCount, esize]; ring

@[simp] theorem measureE_Arctan (u : Expression) : measureE (Arctan u) = measureE u + 1 := by
  simp [measureE, rootCount, esize]; ring

@[simp] theorem measureE_Exp (u : Expression) : measureE (Exp u) = measureE u + 1 := by
  simp [measureE, rootCount, esize]; ring

@[simp] theorem measureE_Ln (u : Expression) : measureE (Ln u) = measureE u + 1 := by
  simp [measureE, rootCount, esize]; ring

@[simp] theorem measureE_Sinh (u : Expression) : measureE (Sinh u) = measureE u + 1 := by
  simp [measureE, rootCount, esize]; ring

@[simp] theorem measureE_Cosh (u : Expression) : measureE (Cosh u) = measureE u + 1 := by
  simp [measureE, rootCount, esize]; ring

@[simp] theorem measureE_Tanh (u : Expression) : measureE (Tanh u) = measureE u + 1 := by
  simp [measureE, rootCount, esize]; ring

theorem simplifyF_constE {n : Nat} (hn : 0 < n) (c : ℚ) :
    simplifyF n (Constant c) = some (Constant c) := by
  obtain ⟨k, rfl⟩ : ∃ k, n = k + 1 := ⟨n - 1, by omega⟩
  simp [simplifyF]

theorem simplifyF_varE {n : Nat} (hn : 0 < n) (v : String) :
    simplifyF n (Variable v) = some (Variable v) := by
  obtain ⟨k, rfl⟩ : ∃ k, n = k + 1 := ⟨n - 1, by omega⟩
  simp [simplifyF]

theorem fixpt_constE (c : ℚ) : FixPt (Constant c) := fun n hn =>
  simplifyF_constE (by omega) c

theorem fixpt_varE (v : String) : FixPt (Variable v) := fun n hn =>
  simplifyF_varE (by omega) v

theorem lnArg_some {S t : Expression} (h : lnArg S = some t) : S = Ln t := by
  cases S <;> simp [lnArg] at h
  rw [h]

theorem expArg_some {S t : Expression} (h : expArg S = some t) : S = Exp t := by
  cases S <;> simp [expArg] at h
  rw [h]

theorem fixpt_Add (L R : Expression) (hL : FixPt L) (hR : FixPt R)
    (h : simpAdd L R = Add L R) : FixPt (Add L R) := by
  intro n hn
  obtain ⟨k, rfl⟩ : ∃ k, n = k + 1 := ⟨n - 1, by omega⟩
  simp only [measureE_Add] at hn
  simp [simplifyF, hL k (by omega), hR k (by omega), h]

theorem fixpt_Subtract (L R : Expression) (hL : FixPt L) (hR : FixPt R)
    (h : simpSub L R = Subtract L R) : FixPt (Subtract L R) := by
  intro n hn
  obtain ⟨k, rfl⟩ : ∃ k, n = k + 1 := ⟨n - 1, by omega⟩
  simp only [measureE_Subtract] at hn
  simp [simplifyF, hL k (by omega), hR k (by omega), h]

theorem fixpt_Multiply (L R : Expression) (hL : FixPt L) (hR : FixPt R)
    (h : simpMul L R = Multiply L R) : FixPt (Multiply L R) := by
  intro n hn
  obtain ⟨k, rfl⟩ : ∃ k, n = k + 1 := ⟨n - 1, by omega⟩
  simp only [measureE_Multiply] at hn
  simp [simplifyF, hL k (by omega), hR k (by omega), h]

theorem fixpt_Divide (L R : Expression) (hL : FixPt L) (hR : FixPt R)
    (h : simpDiv L R = Divide L R) : FixPt (Divide L R) := by
  intro n hn
  obtain ⟨k, rfl⟩ : ∃ k, n = k + 1 := ⟨n - 1, by omega⟩
  simp only [measureE_Divide] at hn
  simp [simplifyF, hL k (by omega), hR k (by omega), h]

theorem fixpt_Power (L R : Expression) (hL : FixPt L) (hR : FixPt R)
    (h : simpPow L R = Power L R) : FixPt (Power L R) := by
  intro n hn
  obtain ⟨k, rfl⟩ : ∃ k, n = k + 1 := ⟨n - 1, by omega⟩
  simp only [measureE_Power] at hn
  simp [simplifyF, hL k (by omega), hR k (by omega), h]

theorem fixpt_Log (L R : Expression) (hL : FixPt L) (hR : FixPt R)
    (h : simpLog L R = Log L R) : FixPt (Log L R) := by
  intro n hn
  obtain ⟨k, rfl⟩ : ∃ k, n = k + 1 := ⟨n - 1, by omega⟩
  simp only [measureE_Log] at hn
  simp [simplifyF, hL k (by omega), hR k (by omega), h]

theorem fixpt_Sin (S : Expression) (hS : FixPt S) (h : simpSin S = Sin S) :
    FixPt (Sin S) := by
  intro n hn
  obtain ⟨k, rfl⟩ : ∃ k, n = k + 1 := ⟨n - 1, by omega⟩
  simp only [measureE_Sin] at hn
  simp [simplifyF, hS k (by omega), h]

theorem fixpt_Cos (S : Expression) (hS : FixPt S) (h : simpCos S = Cos S) :
    FixPt (Cos S) := by
  intro n hn
  obtain ⟨k, rfl⟩ : ∃ k, n = k + 1 := ⟨n - 1, by omega⟩
  simp only [measureE_Cos] at hn
  simp [simplifyF, hS k (by omega), h]

theorem fixpt_Tan (S : Expression) (hS : FixPt S) (h : simpTan S = Tan S) :
    FixPt (Tan S) := by
  intro n hn
  obtain ⟨k, rfl⟩ : ∃ k, n = k + 1 := ⟨n - 1, by omega⟩
  simp only [measureE_Tan] at hn
  simp [simplifyF, hS k (by omega), h]

theorem fixpt_Arcsin (S : Expression) (hS : FixPt S) (h : simpArcsin S = Arcsin S) :
    FixPt (Arcsin S) := by
  intro n hn
  obtain ⟨k, rfl⟩ : ∃ k, n = k + 1 := ⟨n - 1, by omega⟩
  simp only [measureE_Arcsin] at hn
  simp [simplifyF, hS k (by omega), h]

theorem fixpt_Arccos (S : Expression) (hS : FixPt S) (h : simpArccos S = Arccos S) :
    FixPt (Arccos S) := by
  intro n hn
  obtain ⟨k, rfl⟩ : ∃ k, n = k + 1 := ⟨n - 1, by omega⟩
  simp only [measureE_Arccos] at hn
  simp [simplifyF, hS k (by omega), h]

theorem fixpt_Arctan (S : Expression) (hS : FixPt S) (h : simpArctan S = Arctan S) :
    FixPt (Arctan S) := by
  intro n hn
  obtain ⟨k, rfl⟩ : ∃ k, n = k + 1 := ⟨n - 1, by omega⟩
  simp only [measureE_Arctan] at hn
  simp [simplifyF, hS k (by omega), h]

theorem fixpt_Sinh (S : Expression) (hS : FixPt S) (h : simpSinh S = Sinh S) :
    FixPt (Sinh S) := by
  intro n hn
  obtain ⟨k, rfl⟩ : ∃ k, n = k + 1 := ⟨n - 1, by omega⟩
  simp only [measureE_Sinh] at hn
  simp [simplifyF, hS k (by omega), h]

theorem fixpt_Cosh (S : Expression) (hS : FixPt S) (h : simpCosh S = Cosh S) :
    FixPt (Cosh S) := by
  intro n hn
  obtain ⟨k, rfl⟩ : ∃ k, n = k + 1 := ⟨n - 1, by omega⟩
  simp only [measureE_Cosh] at hn
  simp [simplifyF, hS k (by omega), h]

theorem fixpt_Tanh (S : Expression) (hS : FixPt S) (h : simpTanh S = Tanh S) :
    FixPt (Tanh S) := by
  intro n hn
  obtain ⟨k, rfl⟩ : ∃ k, n = k + 1 := ⟨n - 1, by omega⟩
  simp only [measureE_Tanh] at hn
  simp [simplifyF, hS k (by omega), h]

theorem fixpt_Exp (S : Expression) (hS : FixPt S) (hln : lnArg S = none)
    (h : simpExp S = Exp S) : FixPt (Exp S) := by
  intro n hn
  obtain ⟨k, rfl⟩ : ∃ k, n = k + 1 := ⟨n - 1, by omega⟩
  simp only [measureE_Exp] at hn
  simp [simplifyF, hS k (by omega), hln, h]

theorem fixpt_Ln (S : Expression) (hS : FixPt S) (hexp : expArg S = none)
    (h : simpLn S = Ln S) : FixPt (Ln S) := by
  intro n hn
  obtain ⟨k, rfl⟩ : ∃ k, n = k + 1 := ⟨n - 1, by omega⟩
  simp only [measureE_Ln] at hn
  simp [simplifyF, hS k (by omega), hexp, h]

theorem fixpt_two_mul_var (v : String) : FixPt (Multiply (Constant 2) (Variable v)) := by
  intro n hn
  obtain ⟨k, rfl⟩ : ∃ k, n = k + 1 := ⟨n - 1, by omega⟩
  simp only [measureE_Multiply, measureE_Constant, measureE_Variable] at hn
  have hk : 0 < k := by omega
  simp [simplifyF, simplifyF_constE hk, simplifyF_varE hk]
  norm_num [simpMul]

theorem fixpt_var_pow_two (v : String) : FixPt (Power (Variable v) (Constant 2)) := by
  intro n hn
  obtain ⟨k, rfl⟩ : ∃ k, n = k + 1 := ⟨n - 1, by omega⟩
  simp only [measureE_Power, measureE_Constant, measureE_Variable] at hn
  have hk : 0 < k := by omega
  simp [simplifyF, simplifyF_constE hk, simplifyF_varE hk]
  norm_num [simpPow]

theorem simpAdd_shape (L R : Expression) :
    simpAdd L R = L ∨ simpAdd L R = R ∨ (∃ c, simpAdd L R = Constant c) ∨
    (∃ v, L = Variable v ∧ R = Variable v ∧
      simpAdd L R = Multiply (Constant 2) (Variable v)) ∨
    simpAdd L R = Add L R := by
  unfold simpAdd
  split
  all_goals try split_ifs
  all_goals simp_all

theorem simpSub_shape (L R : Expression) :
    simpSub L R = L ∨ (∃ c, simpSub L R = Constant c) ∨
    simpSub L R = Subtract L R := by
  unfold simpSub
  split
  all_goals try split_ifs
  all_goals simp_all

theorem simpMul_shape (L R : Expression) :
    simpMul L R = L ∨ simpMul L R = R ∨ (∃ c, simpMul L R = Constant c) ∨
    (∃ v, L = Variable v ∧ R = Variable v ∧
      simpMul L R = Power (Variable v) (Constant 2)) ∨
    simpMul L R = Multiply L R := by
  unfold simpMul
  split
  all_goals try split_ifs
  all_goals simp_all

theorem simpDiv_shape (L R : Expression) :
    simpDiv L R = L ∨ (∃ c, simpDiv L R = Constant c) ∨
    simpDiv L R = Divide L R := by
  unfold simpDiv
  split
  all_goals try split_ifs
  all_goals simp_all

theorem simpPow_shape (L R : Expression) :
    simpPow L R = L ∨ (∃ c, simpPow L R = Constant c) ∨
    simpPow L R = Power L R := by
  unfold simpPow
  split
  all_goals try split_ifs
  all_goals simp_all

theorem simpSin_shape (S : Expression) :
    (∃ c, simpSin S = Constant c) ∨ simpSin S = Sin S := by
  unfold simpSin
  split
  all_goals try split_ifs
  all_goals simp_all

theorem simpCos_shape (S : Expression) :
    (∃ c, simpCos S = Constant c) ∨ simpCos S = Cos S := by
  unfold simpCos
  split
  all_goals try split_ifs
  all_goals simp_all

theorem simpTan_shape (S : Expression) :
    (∃ c, simpTan S = Constant c) ∨ simpTan S = Tan S := by
  unfold simpTan
  split
  all_goals try split_ifs
  all_goals simp_all

theorem simpArcsin_shape (S : Expression) :
    (∃ c, simpArcsin S = Constant c) ∨ simpArcsin S = Arcsin S := by
  unfold simpArcsin
  split
  all_goals try split_ifs
  all_goals simp_all

theorem simpArccos_shape (S : Expression) :
    (∃ c, simpArccos S = Constant c) ∨ simpArccos S = Arccos S := by
  unfold simpArccos
  split
  all_goals try split_ifs
  all_goals simp_all

theorem simpArctan_shape (S : Expression) :
    (∃ c, simpArctan S = Constant c) ∨ simpArctan S = Arctan S := by
  unfold simpArctan
  split
  all_goals try split_ifs
  all_goals simp_all

theorem simpExp_shape (S : Expression) :
    (∃ c, simpExp S = Constant c) ∨ simpExp S = Exp S := by
  unfold simpExp
  split
  all_goals try split_ifs
  all_goals simp_all

theorem simpLn_shape (S : Expression) :
    (∃ c, simpLn S = Constant c) ∨ simpLn S = Ln S := by
  unfold simpLn
  split
  all_goals try split_ifs
  all_goals simp_all

theorem simpLog_shape (L R : Expression) :
    (∃ c, simpLog L R = Constant c) ∨ simpLog L R = Log L R := by
  unfold simpLog
  split
  all_goals try split_ifs
  all_goals simp_all

theorem simpSinh_shape (S : Expression) :
    (∃ c, simpSinh S = Constant c) ∨ simpSinh S = Sinh S := by
  unfold simpSinh
  split
  all_goals try split_ifs
  all_goals simp_all

theorem simpCosh_shape (S : Expression) :
    (∃ c, simpCosh S = Constant c) ∨ simpCosh S = Cosh S := by
  unfold simpCosh
  split
  all_goals try split_ifs
  all_goals simp_all

theorem simpTanh_shape (S : Expression) :
    (∃ c, simpTanh S = Constant c) ∨ simpTanh S = Tanh S := by
  unfold simpTanh
  split
  all_goals try split_ifs
  all_goals simp_all

theorem simpAdd_props (L R : Expression) (hL : FixPt L) (hR : FixPt R)
    (rfL : rootFree L = true) (rfR : rootFree R = true) :
    measureE (simpAdd L R) ≤ measureE L + measureE R + 1 ∧
    rootFree (simpAdd L R) = true ∧ FixPt (simpAdd L R) := by
  rcases simpAdd_shape L R with h | h | ⟨c, h⟩ | ⟨v, hLv, hRv, h⟩ | h
  · rw [h]; have := measureE_pos R; exact ⟨by omega, rfL, hL⟩
  · rw [h]; have := measureE_pos L; exact ⟨by omega, rfR, hR⟩
  · rw [h]
    have h1 := measureE_pos L
    have h2 := measureE_pos R
    exact ⟨by simp, rfl, fixpt_constE c⟩
  · subst hLv; subst hRv; rw [h]
    exact ⟨by simp, by simp [rootFree], fixpt_two_mul_var v⟩
  · rw [h]
    exact ⟨by simp, by simp [rootFree, rfL, rfR], fixpt_Add L R hL hR h⟩

theorem simpSub_props (L R : Expression) (hL : FixPt L) (hR : FixPt R)
    (rfL : rootFree L = true) (rfR : rootFree R = true) :
    measureE (simpSub L R) ≤ measureE L + measureE R + 1 ∧
    rootFree (simpSub L R) = true ∧ FixPt (simpSub L R) := by
  rcases simpSub_shape L R with h | ⟨c, h⟩ | h
  · rw [h]; have := measureE_pos R; exact ⟨by omega, rfL, hL⟩
  · rw [h]
    have h1 := measureE_pos L
    have h2 := measureE_pos R
    exact ⟨by simp, rfl, fixpt_constE c⟩
  · rw [h]
    exact ⟨by simp, by simp [rootFree, rfL, rfR], fixpt_Subtract L R hL hR h⟩

theorem simpMul_props (L R : Expression) (hL : FixPt L) (hR : FixPt R)
    (rfL : rootFree L = true) (rfR : rootFree R = true) :
    measureE (simpMul L R) ≤ measureE L + measureE R + 1 ∧
    rootFree (simpMul L R) = true ∧ FixPt (simpMul L R) := by
  rcases simpMul_shape L R with h | h | ⟨c, h⟩ | ⟨v, hLv, hRv, h⟩ | h
  · rw [h]; have := measureE_pos R; exact ⟨by omega, rfL, hL⟩
  · rw [h]; have := measureE_pos L; exact ⟨by omega, rfR, hR⟩
  · rw [h]
    have h1 := measureE_pos L
    have h2 := measureE_pos R
    exact ⟨by simp, rfl, fixpt_constE c⟩
  · subst hLv; subst hRv; rw [h]
    exact ⟨by simp, by simp [rootFree], fixpt_var_pow_two v⟩
  · rw [h]
    exact ⟨by simp, by simp [rootFree, rfL, rfR], fixpt_Multiply L R hL hR h⟩

theorem simpDiv_props (L R : Expression) (hL : FixPt L) (hR : FixPt R)
    (rfL : rootFree L = true) (rfR : rootFree R = true) :
    measureE (simpDiv L R) ≤ measureE L + measureE R + 1 ∧
    rootFree (simpDiv L R) = true ∧ FixPt (simpDiv L R) := by
  rcases simpDiv_shape L R with h | ⟨c, h⟩ | h
  · rw [h]; have := measureE_pos R; exact ⟨by omega, rfL, hL⟩
  · rw [h]
    have h1 := measureE_pos L
    have h2 := measureE_pos R
    exact ⟨by simp, rfl, fixpt_constE c⟩
  · rw [h]
    exact ⟨by simp, by simp [rootFree, rfL, rfR], fixpt_Divide L R hL hR h⟩

theorem simpPow_props (L R : Expression) (hL : FixPt L) (hR : FixPt R)
    (rfL : rootFree L = true) (rfR : rootFree R = true) :
    measureE (simpPow L R) ≤ measureE L + measureE R + 1 ∧
    rootFree (simpPow L R) = true ∧ FixPt (simpPow L R) := by
  rcases simpPow_shape L R with h | ⟨c, h⟩ | h
  · rw [h]; have := measureE_pos R; exact ⟨by omega, rfL, hL⟩
  · rw [h]
    have h1 := measureE_pos L
    have h2 := measureE_pos R
    exact ⟨by simp, rfl, fixpt_constE c⟩
  · rw [h]
    exact ⟨by simp, by simp [rootFree, rfL, rfR], fixpt_Power L R hL hR h⟩

theorem simpLog_props (L R : Expression) (hL : FixPt L) (hR : FixPt R)
    (rfL : rootFree L = true) (rfR : rootFree R = true) :
    measureE (simpLog L R) ≤ measureE L + measureE R + 1 ∧
    rootFree (simpLog L R) = true ∧ FixPt (simpLog L R) := by
  rcases simpLog_shape L R with ⟨c, h⟩ | h
  · rw [h]
    have h1 := measureE_pos L
    have h2 := measureE_pos R
    exact ⟨by simp, rfl, fixpt_constE c⟩
  · rw [h]
    exact ⟨by simp, by simp [rootFree, rfL, rfR], fixpt_Log L R hL hR h⟩

theorem simpSin_props (S : Expression) (hS : FixPt S) (rfS : rootFree S = true) :
    measureE (simpSin S) ≤ measureE S + 1 ∧
    rootFree (simpSin S) = true ∧ FixPt (simpSin S) := by
  rcases simpSin_shape S with ⟨c, h⟩ | h
  · rw [h]; have := measureE_pos S; exact ⟨by simp, rfl, fixpt_constE c⟩
  · rw [h]; exact ⟨by simp, by simp [rootFree, rfS], fixpt_Sin S hS h⟩

theorem simpCos_props (S : Expression) (hS : FixPt S) (rfS : rootFree S = true) :
    measureE (simpCos S) ≤ measureE S + 1 ∧
    rootFree (simpCos S) = true ∧ FixPt (simpCos S) := by
  rcases simpCos_shape S with ⟨c, h⟩ | h
  · rw [h]; have := measureE_pos S; exact ⟨by simp, rfl, fixpt_constE c⟩
  · rw [h]; exact ⟨by simp, by simp [rootFree, rfS], fixpt_Cos S hS h⟩

theorem simpTan_props (S : Expression) (hS : FixPt S) (rfS : rootFree S = true) :
    measureE (simpTan S) ≤ measureE S + 1 ∧
    rootFree (simpTan S) = true ∧ FixPt (simpTan S) := by
  rcases simpTan_shape S with ⟨c, h⟩ | h
  · rw [h]; have := measureE_pos S; exact ⟨by simp, rfl, fixpt_constE c⟩
  · rw [h]; exact ⟨by simp, by simp [rootFree, rfS], fixpt_Tan S hS h⟩

theorem simpArcsin_props (S : Expression) (hS : FixPt S) (rfS : rootFree S = true) :
    measureE (simpArcsin S) ≤ measureE S + 1 ∧
    rootFree (simpArcsin S) = true ∧ FixPt (simpArcsin S) := by
  rcases simpArcsin_shape S with ⟨c, h⟩ | h
  · rw [h]; have := measureE_pos S; exact ⟨by simp, rfl, fixpt_constE c⟩
  · rw [h]; exact ⟨by simp, by simp [rootFree, rfS], fixpt_Arcsin S hS h⟩

theorem simpArccos_props (S : Expression) (hS : FixPt S) (rfS : rootFree S = true) :
    measureE (simpArccos S) ≤ measureE S + 1 ∧
    rootFree (simpArccos S) = true ∧ FixPt (simpArccos S) := by
  rcases simpArccos_shape S with ⟨c, h⟩ | h
  · rw [h]; have := measureE_pos S; exact ⟨by simp, rfl, fixpt_constE c⟩
  · rw [h]; exact ⟨by simp, by simp [rootFree, rfS], fixpt_Arccos S hS h⟩

theorem simpArctan_props (S : Expression) (hS : FixPt S) (rfS : rootFree S = true) :
    measureE (simpArctan S) ≤ measureE S + 1 ∧
    rootFree (simpArctan S) = true ∧ FixPt (simpArctan S) := by
  rcases simpArctan_shape S with ⟨c, h⟩ | h
  · rw [h]; have := measureE_pos S; exact ⟨by simp, rfl, fixpt_constE c⟩
  · rw [h]; exact ⟨by simp, by simp [rootFree, rfS], fixpt_Arctan S hS h⟩

theorem simpExp_props (S : Expression) (hS : FixPt S) (rfS : rootFree S = true)
    (hln : lnArg S = none) :
    measureE (simpExp S) ≤ measureE S + 1 ∧
    rootFree (simpExp S) = true ∧ FixPt (simpExp S) := by
  rcases simpExp_shape S with ⟨c, h⟩ | h
  · rw [h]; have := measureE_pos S; exact ⟨by simp, rfl, fixpt_constE c⟩
  · rw [h]; exact ⟨by simp, by simp [rootFree, rfS], fixpt_Exp S hS hln h⟩

theorem simpLn_props (S : Expression) (hS : FixPt S) (rfS : rootFree S = true)
    (hexp : expArg S = none) :
    measureE (simpLn S) ≤ measureE S + 1 ∧
    rootFree (simpLn S) = true ∧ FixPt (simpLn S) := by
  rcases simpLn_shape S with ⟨c, h⟩ | h
  · rw [h]; have := measureE_pos S; exact ⟨by simp, rfl, fixpt_constE c⟩
  · rw [h]; exact ⟨by simp, by simp [rootFree, rfS], fixpt_Ln S hS hexp h⟩

theorem simpSinh_props (S : Expression) (hS : FixPt S) (rfS : rootFree S = true) :
    measureE (simpSinh S) ≤ measureE S + 1 ∧
    rootFree (simpSinh S) = true ∧ FixPt (simpSinh S) := by
  rcases simpSinh_shape S with ⟨c, h⟩ | h
  · rw [h]; have := measureE_pos S; exact ⟨by simp, rfl, fixpt_constE c⟩
  · rw [h]; exact ⟨by simp, by simp [rootFree, rfS], fixpt_Sinh S hS h⟩

theorem simpCosh_props (S : Expression) (hS : FixPt S) (rfS : rootFree S = true) :
    measureE (simpCosh S) ≤ measureE S + 1 ∧
    rootFree (simpCosh S) = true ∧ FixPt (simpCosh S) := by
  rcases simpCosh_shape S with ⟨c, h⟩ | h
  · rw [h]; have := measureE_pos S; exact ⟨by simp, rfl, fixpt_constE c⟩
  · rw [h]; exact ⟨by simp, by simp [rootFree, rfS], fixpt_Cosh S hS h⟩

theorem simpTanh_props (S : Expression) (hS : FixPt S) (rfS : rootFree S = true) :
    measureE (simpTanh S) ≤ measureE S + 1 ∧
    rootFree (simpTanh S) = true ∧ FixPt (simpTanh S) := by
  rcases simpTanh_shape S with ⟨c, h⟩ | h
  · rw [h]; have := measureE_pos S; exact ⟨by simp, rfl, fixpt_constE c⟩
  · rw [h]; exact ⟨by simp, by simp [rootFree, rfS], fixpt_Tanh S hS h⟩

/-- Master lemma: on fuel exceeding the measure, simplifyF succeeds, does
not increase the measure, produces a Root-free result, and the result is a
fixed point of further simplification. -/
theorem simplifyF_total : ∀ (n : Nat) (e : Expression), measureE e < n →
    ∃ s, simplifyF n e = some s ∧ measureE s ≤ measureE e ∧
      rootFree s = true ∧ FixPt s := by
  intro n
  induction n using Nat.strong_induction_on with
  | _ n IH =>
  intro e he
  obtain ⟨k, rfl⟩ : ∃ k, n = k + 1 := ⟨n - 1, by have := measureE_pos e; omega⟩
  have hk : k < k + 1 := Nat.lt_succ_self k
  cases e with
  | Constant c => exact ⟨Constant c, by simp [simplifyF], le_refl _, rfl, fixpt_constE c⟩
  | Variable v => exact ⟨Variable v, by simp [simplifyF], le_refl _, rfl, fixpt_varE v⟩
  | Add l r =>
      simp only [measureE_Add] at he
      have h1 := measureE_pos l
      have h2 := measureE_pos r
      obtain ⟨L, hFL, hmL, hrfL, hfixL⟩ := IH k hk l (by omega)
      obtain ⟨R, hFR, hmR, hrfR, hfixR⟩ := IH k hk r (by omega)
      obtain ⟨hm, hrf, hfix⟩ := simpAdd_props L R hfixL hfixR hrfL hrfR
      exact ⟨simpAdd L R, by simp [simplifyF, hFL, hFR],
        by simp only [measureE_Add]; omega, hrf, hfix⟩
  | Subtract l r =>
      simp only [measureE_Subtract] at he
      have h1 := measureE_pos l
      have h2 := measureE_pos r
      obtain ⟨L, hFL, hmL, hrfL, hfixL⟩ := IH k hk l (by omega)
      obtain ⟨R, hFR, hmR, hrfR, hfixR⟩ := IH k hk r (by omega)
      obtain ⟨hm, hrf, hfix⟩ := simpSub_props L R hfixL hfixR hrfL hrfR
      exact ⟨simpSub L R, by simp [simplifyF, hFL, hFR],
        by simp only [measureE_Subtract]; omega, hrf, hfix⟩
  | Multiply l r =>
      simp only [measureE_Multiply] at he
      have h1 := measureE_pos l
      have h2 := measureE_pos r
      obtain ⟨L, hFL, hmL, hrfL, hfixL⟩ := IH k hk l (by omega)
      obtain ⟨R, hFR, hmR, hrfR, hfixR⟩ := IH k hk r (by omega)
      obtain ⟨hm, hrf, hfix⟩ := simpMul_props L R hfixL hfixR hrfL hrfR
      exact ⟨simpMul L R, by simp [simplifyF, hFL, hFR],
        by simp only [measureE_Multiply]; omega, hrf, hfix⟩
  | Divide l r =>
      simp only [measureE_Divide] at he
      have h1 := measureE_pos l
      have h2 := measureE_pos r
      obtain ⟨L, hFL, hmL, hrfL, hfixL⟩ := IH k hk l (by omega)
      obtain ⟨R, hFR, hmR, hrfR, hfixR⟩ := IH k hk r (by omega)
      obtain ⟨hm, hrf, hfix⟩ := simpDiv_props L R hfixL hfixR hrfL hrfR
      exact ⟨simpDiv L R, by simp [simplifyF, hFL, hFR],
        by simp only [measureE_Divide]; omega, hrf, hfix⟩
  | Power b ex =>
      simp only [measureE_Power] at he
      have h1 := measureE_pos b
      have h2 := measureE_pos ex
      obtain ⟨B, hFB, hmB, hrfB, hfixB⟩ := IH k hk b (by omega)
      obtain ⟨E, hFE, hmE, hrfE, hfixE⟩ := IH k hk ex (by omega)
      obtain ⟨hm, hrf, hfix⟩ := simpPow_props B E hfixB hfixE hrfB hrfE
      exact ⟨simpPow B E, by simp [simplifyF, hFB, hFE],
        by simp only [measureE_Power]; omega, hrf, hfix⟩
  | Root b d =>
      simp only [measureE_Root] at he
      have h1 := measureE_pos b
      have h2 := measureE_pos d
      obtain ⟨B, hFB, hmB, hrfB, hfixB⟩ := IH k hk b (by omega)
      obtain ⟨N, hFN, hmN, hrfN, hfixN⟩ := IH k hk d (by omega)
      have hmP : measureE (Power B (Divide (Constant 1) N)) < k := by
        simp only [measureE_Power, measureE_Divide, measureE_Constant]
        omega
      obtain ⟨s, hFs, hms, hrfs, hfixs⟩ := IH k hk _ hmP
      refine ⟨s, ?_, ?_, hrfs, hfixs⟩
      · simp [simplifyF, hFB, hFN, hFs]
      · simp only [measureE_Power, measureE_Divide, measureE_Constant] at hms
        simp only [measureE_Root]
        omega
  | Log b u =>
      simp only [measureE_Log] at he
      have h1 := measureE_pos b
      have h2 := measureE_pos u
      obtain ⟨B, hFB, hmB, hrfB, hfixB⟩ := IH k hk b (by omega)
      obtain ⟨U, hFU, hmU, hrfU, hfixU⟩ := IH k hk u (by omega)
      obtain ⟨hm, hrf, hfix⟩ := simpLog_props B U hfixB hfixU hrfB hrfU
      exact ⟨simpLog B U, by simp [simplifyF, hFB, hFU],
        by simp only [measureE_Log]; omega, hrf, hfix⟩
  | Sin u =>
      simp only [measureE_Sin] at he
      obtain ⟨S, hFS, hmS, hrfS, hfixS⟩ := IH k hk u (by omega)
      obtain ⟨hm, hrf, hfix⟩ := simpSin_props S hfixS hrfS
      exact ⟨simpSin S, by simp [simplifyF, hFS],
        by simp only [measureE_Sin]; omega, hrf, hfix⟩
  | Cos u =>
      simp only [measureE_Cos] at he
      obtain ⟨S, hFS, hmS, hrfS, hfixS⟩ := IH k hk u (by omega)
      obtain ⟨hm, hrf, hfix⟩ := simpCos_props S hfixS hrfS
      exact ⟨simpCos S, by simp [simplifyF, hFS],
        by simp only [measureE_Cos]; omega, hrf, hfix⟩
  | Tan u =>
      simp only [measureE_Tan] at he
      obtain ⟨S, hFS, hmS, hrfS, hfixS⟩ := IH k hk u (by omega)
      obtain ⟨hm, hrf, hfix⟩ := simpTan_props S hfixS hrfS
      exact ⟨simpTan S, by simp [simplifyF, hFS],
        by simp only [measureE_Tan]; omega, hrf, hfix⟩
  | Arcsin u =>
      simp only [measureE_Arcsin] at he
      obtain ⟨S, hFS, hmS, hrfS, hfixS⟩ := IH k hk u (by omega)
      obtain ⟨hm, hrf, hfix⟩ := simpArcsin_props S hfixS hrfS
      exact ⟨simpArcsin S, by simp [simplifyF, hFS],
        by simp only [measureE_Arcsin]; omega, hrf, hfix⟩
  | Arccos u =>
      simp only [measureE_Arccos] at he
      obtain ⟨S, hFS, hmS, hrfS, hfixS⟩ := IH k hk u (by omega)
      obtain ⟨hm, hrf, hfix⟩ := simpArccos_props S hfixS hrfS
      exact ⟨simpArccos S, by simp [simplifyF, hFS],
        by simp only [measureE_Arccos]; omega, hrf, hfix⟩
  | Arctan u =>
      simp only [measureE_Arctan] at he
      obtain ⟨S, hFS, hmS, hrfS, hfixS⟩ := IH k hk u (by omega)
      obtain ⟨hm, hrf, hfix⟩ := simpArctan_props S hfixS hrfS
      exact ⟨simpArctan S, by simp [simplifyF, hFS],
        by simp only [measureE_Arctan]; omega, hrf, hfix⟩
  | Exp u =>
      simp only [measureE_Exp] at he
      obtain ⟨S, hFS, hmS, hrfS, hfixS⟩ := IH k hk u (by omega)
      cases hln : lnArg S with
      | some inner =>
          have hSeq := lnArg_some hln
          subst hSeq
          simp only [measureE_Ln] at hmS
          obtain ⟨s, hFs, hms, hrfs, hfixs⟩ := IH k hk inner (by omega)
          refine ⟨s, ?_, ?_, hrfs, hfixs⟩
          · simp [simplifyF, hFS, lnArg, hFs]
          · simp only [measureE_Exp]; omega
      | none =>
          obtain ⟨hm, hrf, hfix⟩ := simpExp_props S hfixS hrfS hln
          exact ⟨simpExp S, by simp [simplifyF, hFS, hln],
            by simp only [measureE_Exp]; omega, hrf, hfix⟩
  | Ln u =>
      simp only [measureE_Ln] at he
      obtain ⟨S, hFS, hmS, hrfS, hfixS⟩ := IH k hk u (by omega)
      cases hexp : expArg S with
      | some inner =>
          have hSeq := expArg_some hexp
          subst hSeq
          simp only [measureE_Exp] at hmS
          obtain ⟨s, hFs, hms, hrfs, hfixs⟩ := IH k hk inner (by omega)
          refine ⟨s, ?_, ?_, hrfs, hfixs⟩
          · simp [simplifyF, hFS, expArg, hFs]
          · simp only [measureE_Ln]; omega
      | none =>
          obtain ⟨hm, hrf, hfix⟩ := simpLn_props S hfixS hrfS hexp
          exact ⟨simpLn S, by simp [simplifyF, hFS, hexp],
            by simp only [measureE_Ln]; omega, hrf, hfix⟩
  | Sinh u =>
      simp only [measureE_Sinh] at he
      obtain ⟨S, hFS, hmS, hrfS, hfixS⟩ := IH k hk u (by omega)
      obtain ⟨hm, hrf, hfix⟩ := simpSinh_props S hfixS hrfS
      exact ⟨simpSinh S, by simp [simplifyF, hFS],
        by simp only [measureE_Sinh]; omega, hrf, hfix⟩
  | Cosh u =>
      simp only [measureE_Cosh] at he
      obtain ⟨S, hFS, hmS, hrfS, hfixS⟩ := IH k hk u (by omega)
      obtain ⟨hm, hrf, hfix⟩ := simpCosh_props S hfixS hrfS
      exact ⟨simpCosh S, by simp [simplifyF, hFS],
        by simp only [measureE_Cosh]; omega, hrf, hfix⟩
  | Tanh u =>
      simp only [measureE_Tanh] at he
      obtain ⟨S, hFS, hmS, hrfS, hfixS⟩ := IH k hk u (by omega)
      obtain ⟨hm, hrf, hfix⟩ := simpTanh_props S hfixS hrfS
      exact ⟨simpTanh S, by simp [simplifyF, hFS],
        by simp only [measureE_Tanh]; omega, hrf, hfix⟩

@[simp] theorem except_error_bind {α β γ : Type} (e : α) (f : β → Except α γ) :
    (Except.error e >>= f) = Except.error e := rfl

@[simp] theorem except_ok_bind {α β γ : Type} (b : β) (f : β → Except α γ) :
    (Except.ok b >>= f : Except α γ) = f b := rfl

theorem qpow_zero_exp (c : ℚ) : qpow c 0 = 1 := by
  simp [qpow]

theorem qpow_one_exp (c : ℚ) : qpow c 1 = c := by
  simp [qpow]

theorem qpow_zero_base {n : ℚ} (hn : 0 < n) : qpow 0 n = 0 := by
  unfold qpow
  split_ifs with h1 h2
  · exact zero_zpow _ (by have := Rat.num_pos.mpr hn; omega)
  · exact absurd h2 (by norm_num)
  · rfl

theorem qpow_one_base (n : ℚ) : qpow 1 n = 1 := by
  unfold qpow
  split_ifs with h1 h2
  · exact one_zpow n.num
  · rfl
  · exact absurd rfl h2

theorem dm_pos (e : Expression) : 0 < dm e := by
  cases e <;> simp [dm]

/-- Fuel sufficiency for the fueled differentiator: with fuel at least the
structural bound dm, differentiateF always returns a value. -/
theorem differentiateF_isSome :
    ∀ (f : Nat) (e : Expression) (var : String),
      dm e ≤ f → (differentiateF f e var).isSome = true := by
  intro f
  induction f with
  | zero =>
      intro e var h
      have := dm_pos e
      omega
  | succ f IHf =>
      intro e var h
      cases e with
      | Constant c => simp [differentiateF]
      | Variable name => by_cases hv : name = var <;> simp [differentiateF, hv]
      | Add l r =>
          simp only [dm] at h
          obtain ⟨dl, hdl⟩ := Option.isSome_iff_exists.mp (IHf l var (by omega))
          obtain ⟨dr, hdr⟩ := Option.isSome_iff_exists.mp (IHf r var (by omega))
          simp [differentiateF, hdl, hdr]
      | Subtract l r =>
          simp only [dm] at h
          obtain ⟨dl, hdl⟩ := Option.isSome_iff_exists.mp (IHf l var (by omega))
          obtain ⟨dr, hdr⟩ := Option.isSome_iff_exists.mp (IHf r var (by omega))
          simp [differentiateF, hdl, hdr]
      | Multiply l r =>
          simp only [dm] at h
          obtain ⟨dl, hdl⟩ := Option.isSome_iff_exists.mp (IHf l var (by omega))
          obtain ⟨dr, hdr⟩ := Option.isSome_iff_exists.mp (IHf r var (by omega))
          simp [differentiateF, hdl, hdr]
      | Divide l r =>
          simp only [dm] at h
          obtain ⟨dl, hdl⟩ := Option.isSome_iff_exists.mp (IHf l var (by omega))
          obtain ⟨dr, hdr⟩ := Option.isSome_iff_exists.mp (IHf r var (by omega))
          simp [differentiateF, hdl, hdr]
      | Power b ex =>
          simp only [dm] at h
          obtain ⟨db, hdb⟩ := Option.isSome_iff_exists.mp (IHf b var (by omega))
          cases ex <;> simp [differentiateF, hdb]
      | Root b n =>
          simp only [dm] at h
          have hrec := IHf (Power b (Divide (Constant 1) n)) var (by simp only [dm]; omega)
          simpa [differentiateF] using hrec
      | Sin u =>
          simp only [dm] at h
          obtain ⟨du, hdu⟩ := Option.isSome_iff_exists.mp (IHf u var (by omega))
          simp [differentiateF, hdu]
      | Cos u =>
          simp only [dm] at h
          obtain ⟨du, hdu⟩ := Option.isSome_iff_exists.mp (IHf u var (by omega))
          simp [differentiateF, hdu]
      | Tan u =>
          simp only [dm] at h
          obtain ⟨du, hdu⟩ := Option.isSome_iff_exists.mp (IHf u var (by omega))
          simp [differentiateF, hdu]
      | Arcsin u =>
          simp only [dm] at h
          obtain ⟨du, hdu⟩ := Option.isSome_iff_exists.mp (IHf u var (by omega))
          simp [differentiateF, hdu]
      | Arccos u =>
          simp only [dm] at h
          obtain ⟨du, hdu⟩ := Option.isSome_iff_exists.mp (IHf u var (by omega))
          simp [differentiateF, hdu]
      | Arctan u =>
          simp only [dm] at h
          obtain ⟨du, hdu⟩ := Option.isSome_iff_exists.mp (IHf u var (by omega))
          simp [differentiateF, hdu]
      | Exp u =>
          simp only [dm] at h
          obtain ⟨du, hdu⟩ := Option.isSome_iff_exists.mp (IHf u var (by omega))
          simp [differentiateF, hdu]
      | Ln u =>
          simp only [dm] at h
          obtain ⟨du, hdu⟩ := Option.isSome_iff_exists.mp (IHf u var (by omega))
          simp [differentiateF, hdu]
      | Log b u =>
          simp only [dm] at h
          obtain ⟨du, hdu⟩ := Option.isSome_iff_exists.mp (IHf u var (by omega))
          simp [differentiateF, hdu]
      | Sinh u =>
          simp only [dm] at h
          obtain ⟨du, hdu⟩ := Option.isSome_iff_exists.mp (IHf u var (by omega))
          simp [differentiateF, hdu]
      | Cosh u =>
          simp only [dm] at h
          obtain ⟨du, hdu⟩ := Option.isSome_iff_exists.mp (IHf u var (by omega))
          simp [differentiateF, hdu]
      | Tanh u =>
          simp only [dm] at h
          obtain ⟨du, hdu⟩ := Option.isSome_iff_exists.mp (IHf u var (by omega))
          simp [differentiateF, hdu]

theorem simplify_Add_consts (c1 c2 : ℚ) :
    simplify (Add (Constant c1) (Constant c2)) =
      simpAdd (Constant c1) (Constant c2) := by
  have hm : measureE (Add (Constant c1) (Constant c2)) + 1 = 3 + 1 := by simp
  unfold simplify
  rw [hm]
  simp [simplifyF, simplifyF_constE (show 0 < 3 by norm_num)]

theorem simplify_Sub_consts (c1 c2 : ℚ) :
    simplify (Subtract (Constant c1) (Constant c2)) =
      simpSub (Constant c1) (Constant c2) := by
  have hm : measureE (Subtract (Constant c1) (Constant c2)) + 1 = 3 + 1 := by simp
  unfold simplify
  rw [hm]
  simp [simplifyF, simplifyF_constE (show 0 < 3 by norm_num)]

theorem simplify_Mul_consts (c1 c2 : ℚ) :
    simplify (Multiply (Constant c1) (Constant c2)) =
      simpMul (Constant c1) (Constant c2) := by
  have hm : measureE (Multiply (Constant c1) (Constant c2)) + 1 = 3 + 1 := by simp
  unfold simplify
  rw [hm]
  simp [simplifyF, simplifyF_constE (show 0 < 3 by norm_num)]

theorem simplify_Div_consts (c1 c2 : ℚ) :
    simplify (Divide (Constant c1) (Constant c2)) =
      simpDiv (Constant c1) (Constant c2) := by
  have hm : measureE (Divide (Constant c1) (Constant c2)) + 1 = 3 + 1 := by simp
  unfold simplify
  rw [hm]
  simp [simplifyF, simplifyF_constE (show 0 < 3 by norm_num)]

theorem simplify_Pow_consts (c1 c2 : ℚ) :
    simplify (Power (Constant c1) (Constant c2)) =
      simpPow (Constant c1) (Constant c2) := by
  have hm : measureE (Power (Constant c1) (Constant c2)) + 1 = 3 + 1 := by simp
  unfold simplify
  rw [hm]
  simp [simplifyF, simplifyF_constE (show 0 < 3 by norm_num)]

/-- C1 (amended): integrating the adversarial product x * exp(x) terminates
(the integrator is a total function) but returns the error string
"Integration of general products not implemented", not a MaxDepthExceeded
error: the compiled integrator performs no depth or visited-stack check.
The pruning predicate should_prune itself does report true whenever the
depth has reached max_depth, but integrate never invokes it. -/
theorem integrate_adversarial_product_error :
    (∀ var : String,
      integrate (Multiply (Variable var) (Exp (Variable var))) var =
        .error "Integration of general products not implemented")
    ∧ (∀ (st : IntegrationState) (e : Expression),
        st.max_depth ≤ st.depth → st.should_prune e = true) := by
  constructor
  · intro var
    simp [integrate]
  · intro st e h
    simp [IntegrationState.should_prune, h]

/-- Witness for C1: the amended statement at the concrete input x * exp(x)
with integration variable x, and at a fresh state with max_depth 0. -/
theorem integrate_adversarial_product_error_witness :
    integrate (Multiply (Variable "x") (Exp (Variable "x"))) "x" =
      .error "Integration of general products not implemented" ∧
    (IntegrationState.new 0).should_prune (Variable "x") = true :=
  ⟨integrate_adversarial_product_error.1 "x",
   integrate_adversarial_product_error.2 (IntegrationState.new 0) (Variable "x")
     (Nat.le_refl 0)⟩

/-- Counterexample for C1 as stated: at the adversarial product x * exp(x)
the integrator returns the general-products error, which is not a
MaxDepthExceeded error. -/
theorem integrate_adversarial_product_not_maxdepth :
    integrate (Multiply (Variable "x") (Exp (Variable "x"))) "x" =
      .error "Integration of general products not implemented" ∧
    integrate (Multiply (Variable "x") (Exp (Variable "x"))) "x" ≠
      .error "MaxDepthExceeded" := by
  constructor
  · simp [integrate]
  · simp [integrate]

/-- Counterexample for C2 as stated: on sin(x) * x, a product the direct
rules do not handle, the integrator immediately fails with the
general-products error instead of applying integration by parts; the
failure is not propagated from the by-parts recursion either, since the
integral of v * du that by parts would request (with u = x, v = -1 *
cos(x), du constant) succeeds under this very integrator. -/
theorem integrate_no_by_parts_cex :
    integrate (Multiply (Sin (Variable "x")) (Variable "x")) "x" =
      .error "Integration of general products not implemented" ∧
    integrate (Multiply (Multiply (Constant (-1)) (Cos (Variable "x"))) (Constant 1)) "x" =
      .ok (Multiply (Constant 1) (Multiply (Constant (-1)) (Sin (Variable "x")))) := by
  constructor <;> simp [integrate]

/-- C2 (amended): the Multiply arm of integrate performs no integration by
parts and uses no difficulty scores. It handles exactly: a Constant factor
on either side (the constant is pulled out of the recursive integral), and
a product of two identically named variables (x³/3 when that name is the
integration variable, the error "Cannot integrate this product" otherwise);
every other product fails with "Integration of general products not
implemented". -/
theorem integrate_multiply_arm_characterization :
    (∀ (c : ℚ) (r : Expression) (var : String),
        integrate (Multiply (Constant c) r) var =
          (integrate r var).map fun i => Multiply (Constant c) i)
    ∧ (∀ (l : Expression) (c : ℚ) (var : String), (∀ q : ℚ, l ≠ Constant q) →
        integrate (Multiply l (Constant c)) var =
          (integrate l var).map fun i => Multiply (Constant c) i)
    ∧ (∀ (v var : String),
        integrate (Multiply (Variable v) (Variable v)) var =
          if v = var then .ok (Divide (Power (Variable v) (Constant 3)) (Constant 3))
          else .error "Cannot integrate this product")
    ∧ (∀ (l r : Expression) (var : String), (∀ q : ℚ, l ≠ Constant q) →
        (∀ q : ℚ, r ≠ Constant q) →
        (∀ v w : String, l = Variable v → r = Variable w → v ≠ w) →
        integrate (Multiply l r) var =
          .error "Integration of general products not implemented") := by
  refine ⟨?_, ?_, ?_, ?_⟩
  · intro c r var
    cases hi : integrate r var <;> simp [integrate, hi, Except.map]
  · intro l c var hl
    cases hi : integrate l var <;>
      cases l <;>
      first
        | exact absurd rfl (hl _)
        | simp_all [integrate, Except.map]
  · intro v var
    by_cases h : v = var <;> simp [integrate, h]
  · intro l r var hl hr hvw
    cases l <;> cases r <;>
      first
        | exact absurd rfl (hl _)
        | exact absurd rfl (hr _)
        | (rename_i v w; simp [integrate, hvw v w rfl rfl])
        | simp [integrate]

/-- Witness for C2 (amended) at the concrete product sin(y) * y. -/
theorem integrate_multiply_arm_characterization_witness :
    integrate (Multiply (Sin (Variable "y")) (Variable "y")) "y" =
      .error "Integration of general products not implemented" :=
  integrate_multiply_arm_characterization.2.2.2 (Sin (Variable "y")) (Variable "y") "y"
    (fun _ h => nomatch h) (fun _ h => nomatch h) (fun _ _ h _ => nomatch h)

/-- C3: the integration rule table lookup never matches: the pattern
matcher is a stub reporting false for every triple, so lookup of the
initialized table returns none for every expression and variable. -/
theorem integration_table_lookup_always_none :
    (∀ (e : Expression) (v : String), IntegrationTable.new.lookup e v = none)
    ∧ (∀ (t : IntegrationTable) (p e : Expression) (v : String),
        t.matchesPattern p e v = false) := by
  constructor
  · intro e v
    rfl
  · intro t p e v
    rfl

/-- C4: the power rule of the integrator: for x^n with n further than the
1e-10 tolerance from -1, the result is x^(n+1)/(n+1); for n = -1 the
result is ln(x). -/
theorem integrate_power_rule :
    (∀ (v : String) (n : ℚ), |n - (-1)| > 1 / 10000000000 →
      integrate (Power (Variable v) (Constant n)) v =
        .ok (Divide (Power (Variable v) (Constant (n + 1))) (Constant (n + 1))))
    ∧ (∀ v : String,
        integrate (Power (Variable v) (Constant (-1))) v = .ok (Ln (Variable v))) := by
  constructor
  · intro v n h
    have h2 : (10000000000 : ℚ)⁻¹ < |n + 1| := by simpa using h
    simp [integrate, h2]
  · intro v
    simp [integrate]

/-- Witness for C4: the integral of x^3 with respect to x is x^4/4. -/
theorem integrate_power_rule_witness :
    integrate (Power (Variable "x") (Constant 3)) "x" =
      .ok (Divide (Power (Variable "x") (Constant 4)) (Constant 4)) := by
  have h := integrate_power_rule.1 "x" 3 (by norm_num)
  norm_num at h
  exact h

/-- C5: simplify is idempotent: simplifying an already simplified
expression returns it unchanged, for every expression. -/
theorem simplify_idempotent (e : Expression) :
    simplify (simplify e) = simplify e := by
  obtain ⟨s, hF, hm, hrf, hfix⟩ :=
    simplifyF_total (measureE e + 1) e (Nat.lt_succ_self _)
  have hs : simplify e = s := by simp [simplify, hF]
  rw [hs]
  simp [simplify, hfix (measureE s + 1) (Nat.lt_succ_self _)]

/-- C6: the result of simplify contains no Root node anywhere: the Root arm
rewrites to a Power and re-simplifies, and no rule introduces a Root. -/
theorem simplify_never_contains_root (e : Expression) :
    rootFree (simplify e) = true := by
  obtain ⟨s, hF, hm, hrf, hfix⟩ :=
    simplifyF_total (measureE e + 1) e (Nat.lt_succ_self _)
  simpa [simplify, hF] using hrf

/-- C7: differentiate is total and terminating: the fueled embedding of the
source recursion (whose Root arm recurses on a rewritten Power that is not
a structural subterm) always returns a value within the structural fuel
bound dm, for every expression and variable. -/
theorem differentiate_total_terminates (e : Expression) (var : String) :
    (differentiateF (dm e) e var).isSome = true :=
  differentiateF_isSome (dm e) e var (le_refl _)

/-- Counterexample for C8 as stated: dividing the constant 2 by the
constant 0 is not folded (the fold is guarded by a nonzero denominator);
the expression is returned unchanged, and in particular is not the
Constant that the claimed universal fold would produce. -/
theorem simplify_divide_by_zero_cex :
    simplify (Divide (Constant 2) (Constant 0)) =
      Divide (Constant 2) (Constant 0) ∧
    simplify (Divide (Constant 2) (Constant 0)) ≠
      Constant ((2 : ℚ) / 0) := by
  have h := simplify_Div_consts 2 0
  have h2 : simpDiv (Constant 2) (Constant 0) = Divide (Constant 2) (Constant 0) := by
    norm_num [simpDiv]
  constructor
  · rw [h, h2]
  · rw [h, h2]
    intro hc
    exact nomatch hc

/-- C8 (amended): constant folding of two Constant operands holds
unconditionally for Add, Subtract, Multiply and Power (the Power fold
evaluating powf, modelled by qpow), and for Divide exactly when the
numerator is zero (the 0/x rule) or the denominator is nonzero (the
guarded fold); a zero denominator under a nonzero numerator is left
unfolded. -/
theorem simplify_constant_folding :
    (∀ c1 c2 : ℚ, simplify (Add (Constant c1) (Constant c2)) = Constant (c1 + c2))
    ∧ (∀ c1 c2 : ℚ, simplify (Subtract (Constant c1) (Constant c2)) = Constant (c1 - c2))
    ∧ (∀ c1 c2 : ℚ, simplify (Multiply (Constant c1) (Constant c2)) = Constant (c1 * c2))
    ∧ (∀ c1 c2 : ℚ, simplify (Power (Constant c1) (Constant c2)) = Constant (qpow c1 c2))
    ∧ (∀ c1 c2 : ℚ, c1 = 0 ∨ c2 ≠ 0 →
        simplify (Divide (Constant c1) (Constant c2)) = Constant (c1 / c2)) := by
  refine ⟨?_, ?_, ?_, ?_, ?_⟩
  · intro c1 c2
    rw [simplify_Add_consts]
    simp only [simpAdd]
    split_ifs with h1 h2 <;> simp_all
  · intro c1 c2
    rw [simplify_Sub_consts]
    simp only [simpSub]
    split_ifs with h1 <;> simp_all
  · intro c1 c2
    rw [simplify_Mul_consts]
    simp only [simpMul]
    split_ifs with h1 h2 h3 h4 <;> simp_all
  · intro c1 c2
    rw [simplify_Pow_consts]
    simp only [simpPow]
    split_ifs with h1 h2 h3 h4
    · rw [h1, qpow_zero_exp]
    · rw [h2, qpow_one_exp]
    · obtain ⟨hc, hn⟩ := h3
      rw [hc, qpow_zero_base hn]
    · rw [h4, qpow_one_base]
    · rfl
  · intro c1 c2 h
    rw [simplify_Div_consts]
    simp only [simpDiv]
    split_ifs with h1 h2 h3
    · rw [h1]; simp
    · rw [h2]; simp
    · rcases h with h | h
      · exact absurd h h1
      · exact absurd h3 h
    · rfl

/-- Witness for C8 (amended): concrete folds, discharging the Divide side
condition with a nonzero denominator. -/
theorem simplify_constant_folding_witness :
    simplify (Add (Constant 2) (Constant 3)) = Constant 5 ∧
    simplify (Divide (Constant 6) (Constant 3)) = Constant 2 := by
  constructor
  · have h := simplify_constant_folding.1 2 3
    norm_num at h
    exact h
  · have h := simplify_constant_folding.2.2.2.2 6 3 (Or.inr (by norm_num))
    norm_num at h
    exact h

/-- C9: a variable distinct from the integration variable integrates as a
constant coefficient: its integral is that variable times the integration
variable. -/
theorem integrate_foreign_variable (name var : String) (h : name ≠ var) :
    integrate (Variable name) var =
      .ok (Multiply (Variable name) (Variable var)) := by
  simp [integrate, h]

/-- Witness for C9 at the concrete variables y and x. -/
theorem integrate_foreign_variable_witness :
    integrate (Variable "y") "x" =
      .ok (Multiply (Variable "y") (Variable "x")) :=
  integrate_foreign_variable "y" "x" (by decide)

end Expression

theorem runOps_preserves (ops : List StackOp) :
    ∀ s : IntegrationState, s.depth = s.visited_expressions.length →
      (runOps s ops).depth = (runOps s ops).visited_expressions.length := by
  induction ops with
  | nil => intro s h; exact h
  | cons op rest IH =>
      intro s h
      cases op with
      | push e =>
          apply IH
          simp [IntegrationState.push_expression, h]
      | pop =>
          apply IH
          simp [IntegrationState.pop_expression, h]
          intro he
          simp [he]

/-- C10: from a fresh state, any sequence of push_expression and
pop_expression calls keeps the depth counter equal to the length of the
visited stack; in particular pop_expression on the fresh state (empty
stack) leaves the state unchanged with both at zero. -/
theorem integration_state_depth_eq_stack_length :
    (∀ (maxd : Nat) (ops : List StackOp),
      (runOps (IntegrationState.new maxd) ops).depth =
        (runOps (IntegrationState.new maxd) ops).visited_expressions.length)
    ∧ (∀ maxd : Nat, (IntegrationState.new maxd).pop_expression =
        IntegrationState.new maxd) := by
  constructor
  · intro maxd ops
    exact runOps_preserves ops _ (by simp [IntegrationState.new])
  · intro maxd
    rfl

end Wavesurf
